import Mathlib

/-!
Verification of the Inoculator RTL automation scripts
(generateRTL.py, simulateRTL.py, exportRTL.py, main_runner.py).

The browser page is external nondeterminism: every place the Python code
reads something from the page is modelled as an observation value, and
the completion loops are parametrised by the stream of probe outcomes
(indexed by probe cycle and project index, plus an export-type index for
the export phase).  Code that only drives the UI (selectors, navigation,
sleeps, logging) has no observable effect on the results table and is
not modelled.  `time.sleep` and `page.wait_for_timeout` are no-ops in
the model; the unbounded `while True` completion loop of
`run_generate_rtl` is modelled with an explicit fuel argument, where
`none` means the loop has not finished within that many probe cycles.
A `try`/`except` block around a whole function body is modelled by a
`raises` flag in the observation record.
-/

namespace Inoculator

/-- Job status values used by the Python code; `untriggered` models the
initial empty-string status `""`. -/
inductive Status where
  | untriggered
  | pending
  | processing
  | passed
  | failed
  | incomplete
deriving DecidableEq, Repr

/-- One row of the generate/simulate results DataFrame: columns
`ID`, `NAME`, `STATUS`, `started on`, `completed on`. -/
structure RunRow where
  id : String
  name : String
  status : Status
  startedOn : String
  completedOn : String
deriving DecidableEq, Repr

/-- One export cell of the export results DataFrame: the status column
named after the export type together with its `createdAt_<type>` column. -/
structure ExpCell where
  typeName : String
  createdAt : String
  status : Status
deriving DecidableEq, Repr

/-- One row of the export results DataFrame: `ID`, `NAME`, and one
`ExpCell` per export type, in `export_types` order. -/
structure ExpRow where
  id : String
  name : String
  cells : List ExpCell
deriving DecidableEq, Repr

/-- The seven export type combinations (exportRTL.py line 5). -/
def export_types : List String :=
  ["Encrypted", "Obfuscated", "Clean", "All 3", "Enc+Clean", "Obs+Clean", "Enc+Obs"]

/-- What a status cell of a listing row can show: the three status
icons recognised by the probes.  Each flag also covers the alternate
css-class selector the export probe accepts for the same indicator. -/
structure StatusCellObs where
  checkCircle : Bool
  highlightOff : Bool
  circularProgress : Bool
deriving DecidableEq, Repr

/-- What `check_generate_completion` observes of `all_rows[1]`:
the `updatedAt` cell (when present) and the two icons it queries. -/
structure GenRowObs where
  updatedAt : Option String
  iconFailed : Bool
  iconSuccess : Bool
deriving DecidableEq, Repr

/-- Page observation for one `check_generate_completion` call.
`row = none` models `len(all_rows) <= 1`. -/
structure GenObs where
  raises : Bool
  row : Option GenRowObs
deriving DecidableEq, Repr

/-- generateRTL.py `check_generate_completion` (lines 61-101): the
status starts out as `"Failed"`, and is only reclassified when a row is
present; the failure icon is checked before the success icon and there
is no `Processing` case.  Any exception yields `("", "Failed")`. -/
def check_generate_completion (obs : GenObs) : String × Status :=
  if obs.raises then ("", Status.failed)
  else
    let updated_at :=
      match obs.row with
      | some r => r.updatedAt.getD ""
      | none => ""
    let status :=
      match obs.row with
      | some r =>
        if r.iconFailed then Status.failed
        else if r.iconSuccess then Status.passed
        else Status.pending
      | none => Status.failed
    (updated_at, status)

/-- What `check_simulation_completion` observes of `all_rows[1]`. -/
structure SimRowObs where
  updatedAt : Option String
  statusCell : Option StatusCellObs
deriving DecidableEq, Repr

/-- Page observation for one `check_simulation_completion` call. -/
structure SimObs where
  raises : Bool
  row : Option SimRowObs
deriving DecidableEq, Repr

/-- simulateRTL.py `check_simulation_completion` (lines 27-62):
success icon, then failure icon, then progress spinner, else
`Pending`; no row or no status cell also gives `Pending`.  Any
exception yields `("", "Failed")`. -/
def check_simulation_completion (obs : SimObs) : String × Status :=
  if obs.raises then ("", Status.failed)
  else
    let updated_at :=
      match obs.row with
      | some r => r.updatedAt.getD ""
      | none => ""
    let status :=
      match obs.row with
      | none => Status.pending
      | some r =>
        match r.statusCell with
        | none => Status.pending
        | some c =>
          if c.checkCircle then Status.passed
          else if c.highlightOff then Status.failed
          else if c.circularProgress then Status.processing
          else Status.pending
    (updated_at, status)

/-- One listing row as observed by the export probe: its `createdAt`
cell (when present) and its status cell (when present). -/
structure ExpRowObs where
  createdAt : Option String
  statusCell : Option StatusCellObs
deriving DecidableEq, Repr

/-- Page observation for one `check_export_completion` call. -/
structure ExpObs where
  raises : Bool
  rows : List ExpRowObs
deriving DecidableEq, Repr

/-- Helper for `pyStrip`: drop leading whitespace characters. -/
def dropWhileWs : List Char → List Char
  | [] => []
  | c :: cs => if c.isWhitespace then dropWhileWs cs else c :: cs

/-- Python's `str.strip()`: remove leading and trailing whitespace. -/
def pyStrip (s : String) : String :=
  ⟨(dropWhileWs ((dropWhileWs s.data).reverse)).reverse⟩

/-- The row lookup of `check_export_completion` (exportRTL.py lines
102-109): first row whose stripped `createdAt` text equals the stripped
correlation key. -/
def findTargetRow (rows : List ExpRowObs) (created_at_val : String) : Option ExpRowObs :=
  rows.find? (fun r =>
    match r.createdAt with
    | some s => pyStrip s == pyStrip created_at_val
    | none => false)

/-- exportRTL.py `check_export_completion` (lines 88-130): no matching
row or no status cell gives `Pending`; then success icon, failure icon,
progress spinner, else `Pending`.  Any exception yields `Failed`.
Unlike the other two probes it returns only a status, no timestamp. -/
def check_export_completion (obs : ExpObs) (created_at_val : String) : Status :=
  if obs.raises then Status.failed
  else
    match findTargetRow obs.rows created_at_val with
    | none => Status.pending
    | some r =>
      match r.statusCell with
      | none => Status.pending
      | some c =>
        if c.checkCircle then Status.passed
        else if c.highlightOff then Status.failed
        else if c.circularProgress then Status.processing
        else Status.pending

/-- Status classification written from the spec's words, for refinement
comparison with the three probe functions: `none` is "entry not found at
all", `some (suc, fl, prog)` are the success/failure/progress indicators
of an existing entry; priority order success, failure, progress, else
`Pending`, and not-found is also `Pending`. -/
def classifySpec (entry : Option (Bool × Bool × Bool)) : Status :=
  match entry with
  | none => Status.pending
  | some (suc, fl, prog) =>
    if suc then Status.passed
    else if fl then Status.failed
    else if prog then Status.processing
    else Status.pending

/-- The entry, in the sense of `classifySpec`, that a simulate probe
observation presents: a row with no status cell is an existing entry
with no indicator. -/
def simEntry (obs : SimObs) : Option (Bool × Bool × Bool) :=
  match obs.row with
  | none => none
  | some r =>
    match r.statusCell with
    | none => some (false, false, false)
    | some c => some (c.checkCircle, c.highlightOff, c.circularProgress)

/-- The entry, in the sense of `classifySpec`, that an export probe
observation presents for a given correlation key. -/
def expEntry (obs : ExpObs) (created_at_val : String) : Option (Bool × Bool × Bool) :=
  match findTargetRow obs.rows created_at_val with
  | none => none
  | some r =>
    match r.statusCell with
    | none => some (false, false, false)
    | some c => some (c.checkCircle, c.highlightOff, c.circularProgress)

/-- The behaviour of the generate probe's classification (for the
amended refinement statement): failure icon before success icon, no
`Processing`, and `Failed` when no entry row is found. -/
def genClassify (row : Option GenRowObs) : Status :=
  match row with
  | none => Status.failed
  | some r =>
    if r.iconFailed then Status.failed
    else if r.iconSuccess then Status.passed
    else Status.pending

/-- Observation for one `trigger_generate_design` call (generateRTL.py
lines 6-26): the `createdAt` field text read right after clicking
Generate Design (`none` models that inner read raising, which the inner
`except` turns into `""`).  `trigger_simulation` (simulateRTL.py lines
5-25) has exactly the same read-once structure. -/
structure GenTrigObs where
  raises : Bool
  createdAtField : Option String
deriving DecidableEq, Repr

/-- generateRTL.py `trigger_generate_design`: one immediate read of the
`createdAt` field, no snapshot and no polling; `""` on any exception. -/
def trigger_generate_design (obs : GenTrigObs) : String :=
  if obs.raises then ""
  else obs.createdAtField.getD ""

/-- The stripped `createdAt` texts of the cells present in a listing,
as collected both for the snapshot (exportRTL.py lines 36-41) and when
scanning for a new row (lines 11-17). -/
def keysOf (rows : List (Option String)) : List String :=
  rows.filterMap (fun c => c.map pyStrip)

/-- exportRTL.py `wait_for_new_row` (lines 7-19), with one iteration
per sampled second `t`: scan the listing for a stripped `createdAt`
value not in `previous_created_ats`, return the first one found,
otherwise sleep 1s and retry until the timeout is exhausted. -/
def waitForNewRowGo (rowsAt : Nat → List (Option String))
    (previous_created_ats : List String) : Nat → Nat → Option String
  | 0, _ => none
  | n + 1, t =>
    match (keysOf (rowsAt t)).find? (fun k => decide (k ∉ previous_created_ats)) with
    | some k => some k
    | none => waitForNewRowGo rowsAt previous_created_ats n (t + 1)

/-- `wait_for_new_row(page, previous_created_ats, timeout=30)`. -/
def wait_for_new_row (rowsAt : Nat → List (Option String))
    (previous_created_ats : List String) (timeout : Nat := 30) : Option String :=
  waitForNewRowGo rowsAt previous_created_ats timeout 0

/-- Observation for one `trigger_export` call (exportRTL.py lines
21-86): the listing before the Export Package click (used for the
snapshot) and the listing at each second after it (polled by
`wait_for_new_row`). -/
structure ExpTrigObs where
  raises : Bool
  rowsBefore : List (Option String)
  rowsAfter : Nat → List (Option String)

/-- exportRTL.py `trigger_export`: snapshot the stripped `createdAt`
values, perform the export action, then `wait_for_new_row` with the
default 30s timeout; `None` on any exception. -/
def trigger_export (obs : ExpTrigObs) : Option String :=
  if obs.raises then none
  else wait_for_new_row obs.rowsAfter (keysOf obs.rowsBefore) 30

/-- The first pass of `run_generate_rtl`/`run_simulate_rtl`: one row
per project, in input order, with `STATUS = ''`, `started on` from the
trigger (indexed by project position) and `completed on = ''`. -/
def initRows (trig : Nat → String) : Nat → List (String × String) → List RunRow
  | _, [] => []
  | i, p :: ps =>
    { id := p.1, name := p.2, status := Status.untriggered,
      startedOn := trig i, completedOn := "" } :: initRows trig (i + 1) ps

/-- One completion-check pass over the whole table, shared verbatim by
the generate and simulate loops (generateRTL.py lines 135-146,
simulateRTL.py lines 104-116): every project is probed, regardless of
its trigger result, and its `completed on`/`STATUS` are overwritten
with the probe result; the returned flag is `all_done`, which is
falsified by any row whose probe gave an empty `updated_at` or a status
outside `{Passed, Failed}`. -/
def probeCycleGo (probe : Nat → String × Status) : Nat → List RunRow → List RunRow × Bool
  | _, [] => ([], true)
  | i, r :: rs =>
    let p := probe i
    let r' := { r with completedOn := p.1, status := p.2 }
    let ok := !(p.1 == "") && (p.2 == Status.passed || p.2 == Status.failed)
    let rest := probeCycleGo probe (i + 1) rs
    (r' :: rest.1, ok && rest.2)

/-- One completion-check cycle starting at project index 0. -/
def probeCycle (probe : Nat → String × Status) (t : List RunRow) : List RunRow × Bool :=
  probeCycleGo probe 0 t

/-- generateRTL.py completion loop (lines 132-151): `while True`, exit
only when `all_done`.  The fuel argument counts how many probe cycles
we are willing to unfold; `none` means the loop is still running after
that many cycles.  `probe c i` is the outcome `(updated_at, status)` of
`check_generate_completion` for project `i` during cycle `c`. -/
def genLoop (probe : Nat → Nat → String × Status) : Nat → Nat → List RunRow → Option (List RunRow)
  | 0, _, _ => none
  | fuel + 1, c, t =>
    let step := probeCycle (probe c) t
    if step.2 then some step.1 else genLoop probe fuel (c + 1) step.1

/-- simulateRTL.py lines 126-129: after the retry budget, every row
whose status is not `Passed`/`Failed` is set to `Incomplete`. -/
def markIncompleteSim (t : List RunRow) : List RunRow :=
  t.map (fun r =>
    if r.status = Status.passed ∨ r.status = Status.failed then r
    else { r with status := Status.incomplete })

/-- simulateRTL.py completion loop (lines 98-129): at most
`max_retries = 6` probe cycles, early exit when a cycle reports
`all_done`; when the budget runs out with the last cycle not done, the
still-non-terminal rows are marked `Incomplete`. -/
def simLoop (probe : Nat → Nat → String × Status) : Nat → Nat → List RunRow → List RunRow
  | 0, _, t => markIncompleteSim t
  | fuel + 1, c, t =>
    let step := probeCycle (probe c) t
    if step.2 then step.1 else simLoop probe fuel (c + 1) step.1

/-- generateRTL.py `run_generate_rtl`, parametrised by the trigger
outcomes (per project index), the probe outcomes (per cycle and project
index) and the fuel bounding the unbounded `while True` loop. -/
def run_generate_rtl (trig : Nat → String) (probe : Nat → Nat → String × Status)
    (fuel : Nat) (projects : List (String × String)) : Option (List RunRow) :=
  genLoop probe fuel 0 (initRows trig 0 projects)

/-- simulateRTL.py `run_simulate_rtl`, parametrised by the trigger and
probe outcomes; the retry budget is the fixed `max_retries = 6`. -/
def run_simulate_rtl (trig : Nat → String) (probe : Nat → Nat → String × Status)
    (projects : List (String × String)) : List RunRow :=
  simLoop probe 6 0 (initRows trig 0 projects)

/-- exportRTL.py lines 163-168: the `createdAt_<type>` column keeps its
initial `""` unless the trigger returned a truthy (non-empty) value. -/
def storedKey (k : Option String) : String :=
  match k with
  | some s => if s == "" then "" else s
  | none => ""

/-- The export cells of one project row after the trigger pass: one
cell per export type with status `""` and the recorded timestamp. -/
def initExpCells (trigp : Nat → Option String) : Nat → List String → List ExpCell
  | _, [] => []
  | j, ty :: tys =>
    { typeName := ty, createdAt := storedKey (trigp j), status := Status.untriggered }
      :: initExpCells trigp (j + 1) tys

/-- The export table after the trigger pass (exportRTL.py lines
139-168): one row per project in input order. -/
def initExpRows (trig : Nat → Nat → Option String) : Nat → List (String × String) → List ExpRow
  | _, [] => []
  | i, p :: ps =>
    { id := p.1, name := p.2, cells := initExpCells (trig i) 0 export_types }
      :: initExpRows trig (i + 1) ps

/-- The pending-export condition of exportRTL.py line 189: a recorded
correlation key and a current status outside `{Passed, Failed}`. -/
def cellPending (c : ExpCell) : Bool :=
  !(c.createdAt == "") && !(c.status == Status.passed) && !(c.status == Status.failed)

/-- Whether the cycle's `pending_exports` list would be non-empty
(exportRTL.py lines 183-194). -/
def anyPendingExp (t : List ExpRow) : Bool :=
  t.any (fun r => r.cells.any cellPending)

/-- One probe pass over the cells of one project row (exportRTL.py
lines 198-211): only pending cells are probed; the flag is the cycle's
`all_exports_done` contribution, falsified by a probed status in
`{Processing, Pending}`. -/
def expCellsGo (probe : Nat → Status) : Nat → List ExpCell → List ExpCell × Bool
  | _, [] => ([], true)
  | j, c :: cs =>
    let step :=
      if cellPending c then
        let s := probe j
        ({ c with status := s }, !(s == Status.processing || s == Status.pending))
      else (c, true)
    let rest := expCellsGo probe (j + 1) cs
    (step.1 :: rest.1, step.2 && rest.2)

/-- One probe pass over the whole export table. -/
def expRowsGo (probe : Nat → Nat → Status) : Nat → List ExpRow → List ExpRow × Bool
  | _, [] => ([], true)
  | i, r :: rs =>
    let step := expCellsGo (probe i) 0 r.cells
    let rest := expRowsGo probe (i + 1) rs
    ({ r with cells := step.1 } :: rest.1, step.2 && rest.2)

/-- exportRTL.py lines 218-222: after the last retry, cells whose
status is `Pending` or `Processing` are set to `Incomplete`; note that
untriggered cells (status `""`) are left alone. -/
def markIncompleteExp (t : List ExpRow) : List ExpRow :=
  t.map (fun r =>
    { r with cells := r.cells.map (fun c =>
        if c.status = Status.pending ∨ c.status = Status.processing then
          { c with status := Status.incomplete }
        else c) })

/-- exportRTL.py completion loop (lines 175-226): `retry_count` is
incremented at the top of each iteration, so the `retry_count >=
max_retries` branch fires during the sixth cycle and the `while`
condition itself is never the exit; the loop stops early when no cell
is pending, or when a cycle's probes all came back outside
`{Processing, Pending}`.  `fuel = 0` inside the step means
`retry_count` has reached `max_retries`.  `probe c i j` is the outcome
of `check_export_completion` for project `i`, export type `j`, cycle
`c`. -/
def expLoop (probe : Nat → Nat → Nat → Status) : Nat → Nat → List ExpRow → List ExpRow
  | 0, _, t => t
  | fuel + 1, c, t =>
    if anyPendingExp t = false then t
    else
      let step := expRowsGo (probe c) 0 t
      if step.2 then step.1
      else if fuel == 0 then markIncompleteExp step.1
      else expLoop probe fuel (c + 1) step.1

/-- exportRTL.py `run_export_rtl`, parametrised by the trigger outcomes
(per project and export-type index) and the probe outcomes; the retry
budget is the fixed `max_retries = 6`. -/
def run_export_rtl (trig : Nat → Nat → Option String) (probe : Nat → Nat → Nat → Status)
    (projects : List (String × String)) : List ExpRow :=
  expLoop probe 6 0 (initExpRows trig 0 projects)

/-- main_runner.py `InoculatorMasterRunner.run_all_tests` (lines
245-296) reduced to its success logic: login failure returns `False`;
otherwise the result is `True` exactly when at least one of the three
phase runners returned `True` (lines 278-284).  The phase wrappers
catch their own exceptions and return `False`, so the phase outcomes
are modelled as booleans. -/
def run_all_tests (login_ok gen_ok sim_ok exp_ok : Bool) : Bool :=
  if login_ok then gen_ok || sim_ok || exp_ok
  else false

/-- Cell lookup in an export table by project index and export-type
index. -/
def getCell (t : List ExpRow) (i j : Nat) : Option ExpCell :=
  match t[i]? with
  | some r => r.cells[j]?
  | none => none

/-- A probe-outcome stream in which no job ever reports a terminal
indicator: every probe returns an empty timestamp and `Pending`. -/
def alwaysPending : Nat → Nat → String × Status := fun _ _ => ("", Status.pending)

/-- The export version of a never-terminal probe-outcome stream. -/
def alwaysPendingExp : Nat → Nat → Nat → Status := fun _ _ _ => Status.pending

/-! ### One-step unfolding equations for the loop functions -/

theorem probeCycleGo_cons (probe : Nat → String × Status) (i : Nat) (a : RunRow)
    (rs : List RunRow) :
    probeCycleGo probe i (a :: rs) =
      ({ a with completedOn := (probe i).1, status := (probe i).2 }
          :: (probeCycleGo probe (i + 1) rs).1,
        ((!((probe i).1 == ""))
            && ((probe i).2 == Status.passed || (probe i).2 == Status.failed))
          && (probeCycleGo probe (i + 1) rs).2) := rfl

theorem simLoop_succ (probe : Nat → Nat → String × Status) (fuel c : Nat) (t : List RunRow) :
    simLoop probe (fuel + 1) c t =
      (if (probeCycle (probe c) t).2 then (probeCycle (probe c) t).1
       else simLoop probe fuel (c + 1) (probeCycle (probe c) t).1) := rfl

theorem genLoop_succ (probe : Nat → Nat → String × Status) (fuel c : Nat) (t : List RunRow) :
    genLoop probe (fuel + 1) c t =
      (if (probeCycle (probe c) t).2 then some (probeCycle (probe c) t).1
       else genLoop probe fuel (c + 1) (probeCycle (probe c) t).1) := rfl

theorem expLoop_succ (probe : Nat → Nat → Nat → Status) (fuel c : Nat) (t : List ExpRow) :
    expLoop probe (fuel + 1) c t =
      (if anyPendingExp t = false then t
       else if (expRowsGo (probe c) 0 t).2 then (expRowsGo (probe c) 0 t).1
       else if fuel == 0 then markIncompleteExp (expRowsGo (probe c) 0 t).1
       else expLoop probe fuel (c + 1) (expRowsGo (probe c) 0 t).1) := rfl

theorem expCellsGo_cons (probe : Nat → Status) (j : Nat) (c : ExpCell) (cs : List ExpCell) :
    expCellsGo probe j (c :: cs) =
      ((if cellPending c then { c with status := probe j } else c)
          :: (expCellsGo probe (j + 1) cs).1,
        (if cellPending c then !(probe j == Status.processing || probe j == Status.pending)
         else true)
          && (expCellsGo probe (j + 1) cs).2) := by
  show (_, _) = _
  by_cases h : cellPending c = true
  · simp only [expCellsGo, h, if_pos]
  · simp only [expCellsGo, h, if_neg, Bool.false_eq_true, not_false_iff]

theorem expRowsGo_cons (probe : Nat → Nat → Status) (i : Nat) (r : ExpRow)
    (rs : List ExpRow) :
    expRowsGo probe i (r :: rs) =
      ({ r with cells := (expCellsGo (probe i) 0 r.cells).1 }
          :: (expRowsGo probe (i + 1) rs).1,
        (expCellsGo (probe i) 0 r.cells).2 && (expRowsGo probe (i + 1) rs).2) := rfl

/-! ### Lemmas about the shared generate/simulate probe cycle -/

theorem probeCycleGo_done (probe : Nat → String × Status) :
    ∀ (i : Nat) (t : List RunRow), (probeCycleGo probe i t).2 = true →
      ∀ r ∈ (probeCycleGo probe i t).1,
        (r.status = Status.passed ∨ r.status = Status.failed) ∧ r.completedOn ≠ "" := by
  intro i t
  induction t generalizing i with
  | nil => intro _ r hr; simp [probeCycleGo] at hr
  | cons a rs ih =>
    intro hdone r hr
    rw [probeCycleGo_cons] at hdone hr
    simp only [Bool.and_eq_true] at hdone
    obtain ⟨⟨hts, hst⟩, hrest⟩ := hdone
    simp only [List.mem_cons] at hr
    rcases hr with rfl | hr
    · refine ⟨?_, ?_⟩
      · simpa [beq_iff_eq] using hst
      · simpa using hts
    · exact ih (i + 1) hrest r hr

theorem markIncompleteSim_mem (t : List RunRow) :
    ∀ r ∈ markIncompleteSim t,
      r.status = Status.passed ∨ r.status = Status.failed ∨ r.status = Status.incomplete := by
  intro r hr
  simp only [markIncompleteSim, List.mem_map] at hr
  obtain ⟨a, _, rfl⟩ := hr
  by_cases h : a.status = Status.passed ∨ a.status = Status.failed
  · rw [if_pos h]; tauto
  · rw [if_neg h]; right; right; rfl

theorem markIncompleteSim_pending (t : List RunRow)
    (h : ∀ r ∈ t, r.status = Status.pending) :
    ∀ r ∈ markIncompleteSim t, r.status = Status.incomplete := by
  intro r hr
  simp only [markIncompleteSim, List.mem_map] at hr
  obtain ⟨a, ha, rfl⟩ := hr
  have hp := h a ha
  have hcond : ¬(a.status = Status.passed ∨ a.status = Status.failed) := by
    rw [hp]; rintro (h1 | h1) <;> cases h1
  rw [if_neg hcond]

theorem simLoop_mem (probe : Nat → Nat → String × Status) :
    ∀ (fuel c : Nat) (t : List RunRow), ∀ r ∈ simLoop probe fuel c t,
      r.status = Status.passed ∨ r.status = Status.failed ∨ r.status = Status.incomplete := by
  intro fuel
  induction fuel with
  | zero => intro c t r hr; exact markIncompleteSim_mem t r hr
  | succ n ih =>
    intro c t r hr
    rw [simLoop_succ] at hr
    by_cases hd : (probeCycle (probe c) t).2 = true
    · rw [if_pos hd] at hr
      have := probeCycleGo_done (probe c) 0 t hd r hr
      tauto
    · rw [if_neg hd] at hr
      exact ih (c + 1) _ r hr

theorem genLoop_some (probe : Nat → Nat → String × Status) :
    ∀ (fuel c : Nat) (t t' : List RunRow), genLoop probe fuel c t = some t' →
      ∀ r ∈ t', (r.status = Status.passed ∨ r.status = Status.failed) ∧ r.completedOn ≠ "" := by
  intro fuel
  induction fuel with
  | zero => intro c t t' h; cases h
  | succ n ih =>
    intro c t t' h r hr
    rw [genLoop_succ] at h
    by_cases hd : (probeCycle (probe c) t).2 = true
    · rw [if_pos hd] at h
      cases h
      exact probeCycleGo_done (probe c) 0 t hd r hr
    · rw [if_neg hd] at h
      exact ih (c + 1) _ t' h r hr

/-! ### Lemmas about the never-terminal probe stream -/

theorem probeCycleGo_pending (c : Nat) :
    ∀ (j : Nat) (t : List RunRow),
      probeCycleGo (alwaysPending c) j t =
        (t.map (fun r => { r with completedOn := "", status := Status.pending }), t.isEmpty) := by
  intro j t
  induction t generalizing j with
  | nil => rfl
  | cons a rs ih => simp [probeCycleGo, alwaysPending, ih]

theorem simLoop_pending :
    ∀ (n c : Nat) (t : List RunRow), t ≠ [] →
      ∀ r ∈ simLoop alwaysPending (n + 1) c t, r.status = Status.incomplete := by
  intro n
  induction n with
  | zero =>
    intro c t ht r hr
    cases t with
    | nil => exact absurd rfl ht
    | cons a rs =>
      rw [simLoop_succ, probeCycle, probeCycleGo_pending] at hr
      rw [if_neg (by simp)] at hr
      refine markIncompleteSim_pending _ ?_ r hr
      intro x hx
      simp only [List.mem_map] at hx
      obtain ⟨b, _, rfl⟩ := hx
      rfl
  | succ m ih =>
    intro c t ht r hr
    cases t with
    | nil => exact absurd rfl ht
    | cons a rs =>
      rw [simLoop_succ, probeCycle, probeCycleGo_pending] at hr
      rw [if_neg (by simp)] at hr
      exact ih (c + 1) _ (by simp) r hr

theorem genLoop_pending :
    ∀ (n c : Nat) (t : List RunRow), t ≠ [] →
      genLoop alwaysPending n c t = none := by
  intro n
  induction n with
  | zero => intro c t _; rfl
  | succ m ih =>
    intro c t ht
    cases t with
    | nil => exact absurd rfl ht
    | cons a rs =>
      rw [genLoop_succ, probeCycle, probeCycleGo_pending]
      rw [if_neg (by simp)]
      exact ih (c + 1) _ (by simp)

/-! ### Lemmas about the export completion loop -/

/-- Invariant: a cell with no recorded correlation key still has its
initial empty status. -/
def cellGood (c : ExpCell) : Prop := c.createdAt = "" → c.status = Status.untriggered

/-- `cellGood` for every cell of the table. -/
def tableGood (t : List ExpRow) : Prop := ∀ r ∈ t, ∀ c ∈ r.cells, cellGood c

theorem cellPending_false {c : ExpCell} (h : cellPending c = false) :
    c.createdAt = "" ∨ c.status = Status.passed ∨ c.status = Status.failed := by
  simp only [cellPending, Bool.and_eq_false_iff, Bool.not_eq_false', beq_iff_eq] at h
  tauto

theorem cellPending_true {c : ExpCell} (h : cellPending c = true) :
    c.createdAt ≠ "" ∧ c.status ≠ Status.passed ∧ c.status ≠ Status.failed := by
  simp only [cellPending, Bool.and_eq_true, Bool.not_eq_true', beq_eq_false_iff_ne] at h
  tauto

theorem expCellsGo_good (probe : Nat → Status) :
    ∀ (j : Nat) (cs : List ExpCell), (∀ c ∈ cs, cellGood c) →
      ∀ c' ∈ (expCellsGo probe j cs).1, cellGood c' := by
  intro j cs
  induction cs generalizing j with
  | nil => intro _ c' hc'; simp [expCellsGo] at hc'
  | cons a cs ih =>
    intro hg c' hc'
    rw [expCellsGo_cons] at hc'
    simp only [List.mem_cons] at hc'
    rcases hc' with rfl | hc'
    · by_cases hp : cellPending a = true
      · rw [if_pos hp]
        intro hca
        exact absurd hca (cellPending_true hp).1
      · rw [if_neg hp]
        exact hg a (List.mem_cons_self a cs)
    · exact ih (j + 1) (fun c hc => hg c (List.mem_cons_of_mem a hc)) c' hc'

theorem expCellsGo_done_status (probe : Nat → Status) :
    ∀ (j : Nat) (cs : List ExpCell), (∀ c ∈ cs, cellGood c) →
      (expCellsGo probe j cs).2 = true →
      ∀ c' ∈ (expCellsGo probe j cs).1,
        c'.status ≠ Status.pending ∧ c'.status ≠ Status.processing := by
  intro j cs
  induction cs generalizing j with
  | nil => intro _ _ c' hc'; simp [expCellsGo] at hc'
  | cons a cs ih =>
    intro hg hdone c' hc'
    rw [expCellsGo_cons] at hdone hc'
    simp only [Bool.and_eq_true] at hdone
    obtain ⟨hhead, hrest⟩ := hdone
    simp only [List.mem_cons] at hc'
    rcases hc' with rfl | hc'
    · by_cases hp : cellPending a = true
      · rw [if_pos hp]
        rw [if_pos hp] at hhead
        simp only [Bool.not_eq_eq_eq_not, Bool.not_true, Bool.or_eq_false_iff,
          beq_eq_false_iff_ne] at hhead
        exact ⟨hhead.2, hhead.1⟩
      · rw [if_neg hp]
        rcases cellPending_false (by simpa using hp) with hca | hst | hst
        · have := hg a (List.mem_cons_self a cs) hca
          rw [this]
          exact ⟨by simp, by simp⟩
        · rw [hst]; exact ⟨by simp, by simp⟩
        · rw [hst]; exact ⟨by simp, by simp⟩
    · exact ih (j + 1) (fun c hc => hg c (List.mem_cons_of_mem a hc)) hrest c' hc'

theorem expRowsGo_good (probe : Nat → Nat → Status) :
    ∀ (i : Nat) (rs : List ExpRow), tableGood rs →
      tableGood (expRowsGo probe i rs).1 := by
  intro i rs
  induction rs generalizing i with
  | nil => intro _ r hr; simp [expRowsGo] at hr
  | cons a rs ih =>
    intro hg r hr
    rw [expRowsGo_cons] at hr
    simp only [List.mem_cons] at hr
    rcases hr with rfl | hr
    · intro c hc
      exact expCellsGo_good (probe i) 0 a.cells (hg a (List.mem_cons_self a rs)) c hc
    · exact ih (i + 1) (fun x hx => hg x (List.mem_cons_of_mem a hx)) r hr

theorem expRowsGo_done_status (probe : Nat → Nat → Status) :
    ∀ (i : Nat) (rs : List ExpRow), tableGood rs →
      (expRowsGo probe i rs).2 = true →
      ∀ r ∈ (expRowsGo probe i rs).1, ∀ c ∈ r.cells,
        c.status ≠ Status.pending ∧ c.status ≠ Status.processing := by
  intro i rs
  induction rs generalizing i with
  | nil => intro _ _ r hr; simp [expRowsGo] at hr
  | cons a rs ih =>
    intro hg hdone r hr
    rw [expRowsGo_cons] at hdone hr
    simp only [Bool.and_eq_true] at hdone
    simp only [List.mem_cons] at hr
    rcases hr with rfl | hr
    · intro c hc
      exact expCellsGo_done_status (probe i) 0 a.cells
        (hg a (List.mem_cons_self a rs)) hdone.1 c hc
    · exact ih (i + 1) (fun x hx => hg x (List.mem_cons_of_mem a hx)) hdone.2 r hr

theorem anyPendingExp_false {t : List ExpRow} (h : anyPendingExp t = false)
    (hg : tableGood t) :
    ∀ r ∈ t, ∀ c ∈ r.cells, c.status ≠ Status.pending ∧ c.status ≠ Status.processing := by
  intro r hr c hc
  simp only [anyPendingExp, List.any_eq_false] at h
  have hcells : r.cells.any cellPending = false := by simpa using h r hr
  have hcp : cellPending c = false := by
    simp only [List.any_eq_false] at hcells
    simpa using hcells c hc
  rcases cellPending_false hcp with hca | hst | hst
  · have := hg r hr c hc hca
    rw [this]; exact ⟨by simp, by simp⟩
  · rw [hst]; exact ⟨by simp, by simp⟩
  · rw [hst]; exact ⟨by simp, by simp⟩

theorem markIncompleteExp_status (t : List ExpRow) :
    ∀ r ∈ markIncompleteExp t, ∀ c ∈ r.cells,
      c.status ≠ Status.pending ∧ c.status ≠ Status.processing := by
  intro r hr c hc
  simp only [markIncompleteExp, List.mem_map] at hr
  obtain ⟨a, _, rfl⟩ := hr
  simp only [List.mem_map] at hc
  obtain ⟨b, _, rfl⟩ := hc
  by_cases hb : b.status = Status.pending ∨ b.status = Status.processing
  · rw [if_pos hb]; exact ⟨by simp, by simp⟩
  · rw [if_neg hb]
    push_neg at hb
    exact hb

theorem markIncompleteExp_good {t : List ExpRow} (hg : tableGood t) :
    tableGood (markIncompleteExp t) := by
  intro r hr c hc
  simp only [markIncompleteExp, List.mem_map] at hr
  obtain ⟨a, ha, rfl⟩ := hr
  simp only [List.mem_map] at hc
  obtain ⟨b, hb, rfl⟩ := hc
  by_cases hs : b.status = Status.pending ∨ b.status = Status.processing
  · rw [if_pos hs]
    intro hca
    have := hg a ha b hb hca
    rw [this] at hs
    rcases hs with h1 | h1 <;> cases h1
  · rw [if_neg hs]
    exact hg a ha b hb

theorem expLoop_status (probe : Nat → Nat → Nat → Status) :
    ∀ (n c : Nat) (t : List ExpRow), tableGood t →
      ∀ r ∈ expLoop probe (n + 1) c t, ∀ cl ∈ r.cells,
        cl.status ≠ Status.pending ∧ cl.status ≠ Status.processing := by
  intro n
  induction n with
  | zero =>
    intro c t hg r hr
    rw [expLoop_succ] at hr
    by_cases hap : anyPendingExp t = false
    · rw [if_pos hap] at hr
      exact anyPendingExp_false hap hg r hr
    · rw [if_neg hap] at hr
      by_cases hd : (expRowsGo (probe c) 0 t).2 = true
      · rw [if_pos hd] at hr
        exact expRowsGo_done_status (probe c) 0 t hg hd r hr
      · rw [if_neg hd, if_pos (by rfl)] at hr
        exact markIncompleteExp_status _ r hr
  | succ m ih =>
    intro c t hg r hr
    rw [expLoop_succ] at hr
    by_cases hap : anyPendingExp t = false
    · rw [if_pos hap] at hr
      exact anyPendingExp_false hap hg r hr
    · rw [if_neg hap] at hr
      by_cases hd : (expRowsGo (probe c) 0 t).2 = true
      · rw [if_pos hd] at hr
        exact expRowsGo_done_status (probe c) 0 t hg hd r hr
      · rw [if_neg hd, if_neg (by simp)] at hr
        exact ih (c + 1) _ (expRowsGo_good (probe c) 0 t hg) r hr

theorem initExpCells_good (trigp : Nat → Option String) :
    ∀ (j : Nat) (tys : List String) (c : ExpCell), c ∈ initExpCells trigp j tys →
      c.status = Status.untriggered := by
  intro j tys
  induction tys generalizing j with
  | nil => intro c hc; simp [initExpCells] at hc
  | cons ty tys ih =>
    intro c hc
    simp only [initExpCells, List.mem_cons] at hc
    rcases hc with rfl | hc
    · rfl
    · exact ih (j + 1) c hc

theorem initExpRows_good (trig : Nat → Nat → Option String) :
    ∀ (i : Nat) (ps : List (String × String)), tableGood (initExpRows trig i ps) := by
  intro i ps
  induction ps generalizing i with
  | nil => intro r hr; simp [initExpRows] at hr
  | cons p ps ih =>
    intro r hr c hc
    simp only [initExpRows, List.mem_cons] at hr
    rcases hr with rfl | hr
    · intro _
      exact initExpCells_good _ 0 export_types c hc
    · exact ih (i + 1) r hr c hc

/-! ### Pointwise characterisation of the export passes -/

theorem expCellsGo_getElem? (probe : Nat → Status) :
    ∀ (j : Nat) (cs : List ExpCell) (k : Nat),
      ((expCellsGo probe j cs).1)[k]? =
        (cs[k]?).map (fun c =>
          if cellPending c then { c with status := probe (j + k) } else c) := by
  intro j cs
  induction cs generalizing j with
  | nil => intro k; simp [expCellsGo]
  | cons a cs ih =>
    intro k
    rw [expCellsGo_cons]
    cases k with
    | zero => simp
    | succ m =>
      simp only [List.getElem?_cons_succ]
      rw [ih (j + 1) m]
      have : j + 1 + m = j + (m + 1) := by omega
      rw [this]

theorem expRowsGo_getElem? (probe : Nat → Nat → Status) :
    ∀ (i : Nat) (rs : List ExpRow) (k : Nat),
      ((expRowsGo probe i rs).1)[k]? =
        (rs[k]?).map (fun r =>
          { r with cells := (expCellsGo (probe (i + k)) 0 r.cells).1 }) := by
  intro i rs
  induction rs generalizing i with
  | nil => intro k; simp [expRowsGo]
  | cons a rs ih =>
    intro k
    rw [expRowsGo_cons]
    cases k with
    | zero => simp
    | succ m =>
      simp only [List.getElem?_cons_succ]
      rw [ih (i + 1) m]
      have : i + 1 + m = i + (m + 1) := by omega
      rw [this]

theorem getCell_markIncompleteExp (t : List ExpRow) (i j : Nat) :
    getCell (markIncompleteExp t) i j =
      (getCell t i j).map (fun c =>
        if c.status = Status.pending ∨ c.status = Status.processing then
          { c with status := Status.incomplete }
        else c) := by
  simp only [getCell, markIncompleteExp, List.getElem?_map]
  cases t[i]? with
  | none => rfl
  | some r => simp [List.getElem?_map]

theorem getCell_expRowsGo (probe : Nat → Nat → Status) (t : List ExpRow) (i j : Nat) :
    getCell (expRowsGo probe 0 t).1 i j =
      (getCell t i j).map (fun c =>
        if cellPending c then { c with status := probe i j } else c) := by
  simp only [getCell, expRowsGo_getElem?]
  cases t[i]? with
  | none => rfl
  | some r =>
    simp only [Option.map_some']
    rw [expCellsGo_getElem?]
    simp

/-- A cell that is not pending (so is never probed) and whose status is
outside `{Pending, Processing}` (so is never marked `Incomplete`) is
left untouched by the whole export completion loop. -/
theorem expLoop_frozen (probe : Nat → Nat → Nat → Status) :
    ∀ (n c : Nat) (t : List ExpRow) (i j : Nat) (cl : ExpCell),
      getCell t i j = some cl → cellPending cl = false →
      cl.status ≠ Status.pending → cl.status ≠ Status.processing →
      getCell (expLoop probe n c t) i j = some cl := by
  intro n
  induction n with
  | zero => intro c t i j cl hcl _ _ _; exact hcl
  | succ m ih =>
    intro c t i j cl hcl hcp hp1 hp2
    rw [expLoop_succ]
    by_cases hap : anyPendingExp t = false
    · rw [if_pos hap]; exact hcl
    · rw [if_neg hap]
      have hstep : getCell (expRowsGo (probe c) 0 t).1 i j = some cl := by
        rw [getCell_expRowsGo, hcl]
        simp [hcp]
      by_cases hd : (expRowsGo (probe c) 0 t).2 = true
      · rw [if_pos hd]; exact hstep
      · rw [if_neg hd]
        by_cases hm : m = 0
        · subst hm
          rw [if_pos (by rfl), getCell_markIncompleteExp, hstep]
          simp only [Option.map_some']
          rw [if_neg]
          rintro (h1 | h1)
          · exact hp1 h1
          · exact hp2 h1
        · rw [if_neg (by simpa using hm)]
          exact ih (c + 1) _ i j cl hstep hcp hp1 hp2

/-! ### Pointwise characterisation of the trigger pass -/

theorem initExpCells_getElem? (trigp : Nat → Option String) :
    ∀ (j : Nat) (tys : List String) (k : Nat),
      (initExpCells trigp j tys)[k]? =
        (tys[k]?).map (fun ty =>
          { typeName := ty, createdAt := storedKey (trigp (j + k)),
            status := Status.untriggered }) := by
  intro j tys
  induction tys generalizing j with
  | nil => intro k; simp [initExpCells]
  | cons ty tys ih =>
    intro k
    cases k with
    | zero => simp [initExpCells]
    | succ m =>
      simp only [initExpCells, List.getElem?_cons_succ]
      rw [ih (j + 1) m]
      have : j + 1 + m = j + (m + 1) := by omega
      rw [this]

theorem initExpRows_getElem? (trig : Nat → Nat → Option String) :
    ∀ (i : Nat) (ps : List (String × String)) (k : Nat),
      (initExpRows trig i ps)[k]? =
        (ps[k]?).map (fun p =>
          { id := p.1, name := p.2, cells := initExpCells (trig (i + k)) 0 export_types }) := by
  intro i ps
  induction ps generalizing i with
  | nil => intro k; simp [initExpRows]
  | cons p ps ih =>
    intro k
    cases k with
    | zero => simp [initExpRows]
    | succ m =>
      simp only [initExpRows, List.getElem?_cons_succ]
      rw [ih (i + 1) m]
      have : i + 1 + m = i + (m + 1) := by omega
      rw [this]

theorem getCell_initExpRows (trig : Nat → Nat → Option String)
    (ps : List (String × String)) (i j : Nat) (cl : ExpCell)
    (h : getCell (initExpRows trig 0 ps) i j = some cl) :
    cl.status = Status.untriggered ∧ cl.createdAt = storedKey (trig i j) := by
  simp only [getCell, initExpRows_getElem?] at h
  cases hp : ps[i]? with
  | none => rw [hp] at h; cases h
  | some p =>
    rw [hp] at h
    simp only [Option.map_some'] at h
    rw [initExpCells_getElem?] at h
    cases hty : export_types[j]? with
    | none => rw [hty] at h; cases h
    | some ty =>
      rw [hty] at h
      simp only [Option.map_some'] at h
      cases h
      exact ⟨rfl, by simp⟩

/-! ### The export loop under the never-terminal probe stream -/

/-- Invariant when every probe returns `Pending`: a triggered cell is
still untriggered or has been probed to `Pending`. -/
def cellInv (c : ExpCell) : Prop :=
  c.createdAt ≠ "" → (c.status = Status.untriggered ∨ c.status = Status.pending)

/-- `cellInv` for every cell of the table. -/
def tableInv (t : List ExpRow) : Prop := ∀ r ∈ t, ∀ c ∈ r.cells, cellInv c

theorem cellPending_of_inv {c : ExpCell} (h : cellInv c) (hca : c.createdAt ≠ "") :
    cellPending c = true := by
  have hst := h hca
  simp only [cellPending, Bool.and_eq_true, Bool.not_eq_true', beq_eq_false_iff_ne]
  rcases hst with h1 | h1 <;> rw [h1] <;>
    exact ⟨⟨hca, by rintro h2; cases h2⟩, by rintro h2; cases h2⟩

/-- The map one never-terminal probe pass applies to each cell. -/
def pendCellMap (c : ExpCell) : ExpCell :=
  if c.createdAt = "" then c else { c with status := Status.pending }

theorem expCellsGo_pend (cyc i : Nat) :
    ∀ (j : Nat) (cs : List ExpCell), (∀ c ∈ cs, cellInv c) →
      expCellsGo (alwaysPendingExp cyc i) j cs =
        (cs.map pendCellMap, cs.all (fun c => c.createdAt == "")) := by
  intro j cs
  induction cs generalizing j with
  | nil => intro _; rfl
  | cons a cs ih =>
    intro hinv
    rw [expCellsGo_cons, ih (j + 1) (fun c hc => hinv c (List.mem_cons_of_mem a hc))]
    by_cases hca : a.createdAt = ""
    · have hcp : cellPending a = false := by simp [cellPending, hca]
      have hbe : (a.createdAt == "") = true := by simpa using hca
      simp [hcp, pendCellMap, hca, hbe]
    · have hcp : cellPending a = true :=
        cellPending_of_inv (hinv a (List.mem_cons_self a cs)) hca
      have hbe : (a.createdAt == "") = false := by simpa using hca
      simp [hcp, pendCellMap, hca, hbe, alwaysPendingExp]

/-- The map one never-terminal probe pass applies to each row. -/
def pendRowMap (r : ExpRow) : ExpRow :=
  { r with cells := r.cells.map pendCellMap }

theorem expRowsGo_pend (cyc : Nat) :
    ∀ (i : Nat) (rs : List ExpRow), tableInv rs →
      expRowsGo (alwaysPendingExp cyc) i rs =
        (rs.map pendRowMap,
          rs.all (fun r => r.cells.all (fun c => c.createdAt == ""))) := by
  intro i rs
  induction rs generalizing i with
  | nil => intro _; rfl
  | cons a rs ih =>
    intro hinv
    rw [expRowsGo_cons, ih (i + 1) (fun x hx => hinv x (List.mem_cons_of_mem a hx)),
      expCellsGo_pend cyc i 0 a.cells (hinv a (List.mem_cons_self a rs))]
    rfl

theorem tableInv_pendMap {t : List ExpRow} (h : tableInv t) :
    tableInv (t.map pendRowMap) := by
  intro r hr c hc
  simp only [List.mem_map] at hr
  obtain ⟨a, ha, rfl⟩ := hr
  simp only [pendRowMap, List.mem_map] at hc
  obtain ⟨b, hb, rfl⟩ := hc
  intro hca
  by_cases hb' : b.createdAt = ""
  · rw [pendCellMap, if_pos hb'] at hca ⊢
    exact h a ha b hb hca
  · rw [pendCellMap, if_neg hb']
    right; rfl

theorem expLoop_pendingBudget :
    ∀ (n c : Nat) (t : List ExpRow), tableInv t →
      ∀ r ∈ expLoop alwaysPendingExp (n + 1) c t, ∀ cl ∈ r.cells,
        cl.createdAt ≠ "" → cl.status = Status.incomplete := by
  have vac : ∀ (t : List ExpRow), tableInv t → anyPendingExp t = false →
      ∀ r ∈ t, ∀ cl ∈ r.cells, cl.createdAt ≠ "" → cl.status = Status.incomplete := by
    intro t hinv hap r hr cl hcl hca
    exfalso
    have hcp := cellPending_of_inv (hinv r hr cl hcl) hca
    simp only [anyPendingExp, List.any_eq_false] at hap
    have hcells : r.cells.any cellPending = false := by simpa using hap r hr
    simp only [List.any_eq_false] at hcells
    exact absurd hcp (by simpa using hcells cl hcl)
  have flagfalse : ∀ (cyc : Nat) (t : List ExpRow), tableInv t →
      ¬anyPendingExp t = false → (expRowsGo (alwaysPendingExp cyc) 0 t).2 = false := by
    intro cyc t hinv hap
    rw [expRowsGo_pend cyc 0 t hinv]
    show (t.all fun r => r.cells.all fun c => c.createdAt == "") = false
    have hap' : anyPendingExp t = true := by
      cases h : anyPendingExp t with
      | true => rfl
      | false => exact absurd h hap
    simp only [anyPendingExp, List.any_eq_true] at hap'
    obtain ⟨r, hr, hc⟩ := hap'
    obtain ⟨cl, hcl, hcp⟩ := hc
    have hca := (cellPending_true hcp).1
    simp only [List.all_eq_false, Bool.not_eq_true]
    exact ⟨r, hr, cl, hcl, by simpa using hca⟩
  have markmem : ∀ (t : List ExpRow), tableInv t →
      ∀ r ∈ markIncompleteExp (t.map pendRowMap), ∀ cl ∈ r.cells,
        cl.createdAt ≠ "" → cl.status = Status.incomplete := by
    intro t _ r hr cl hcl hca
    simp only [markIncompleteExp, List.mem_map] at hr
    obtain ⟨a, ⟨a0, _, rfl⟩, rfl⟩ := hr
    simp only [pendRowMap, List.mem_map] at hcl
    obtain ⟨b, ⟨b0, _, rfl⟩, rfl⟩ := hcl
    by_cases hb0 : b0.createdAt = ""
    · exfalso
      apply hca
      by_cases hs : (pendCellMap b0).status = Status.pending ∨
          (pendCellMap b0).status = Status.processing
      · rw [if_pos hs]
        simp [pendCellMap, hb0]
      · rw [if_neg hs]
        simp [pendCellMap, hb0]
    · have hpend : (pendCellMap b0).status = Status.pending := by
        simp [pendCellMap, hb0]
      rw [if_pos (Or.inl hpend)]
  intro n
  induction n with
  | zero =>
    intro c t hinv r hr
    rw [expLoop_succ] at hr
    by_cases hap : anyPendingExp t = false
    · rw [if_pos hap] at hr
      exact vac t hinv hap r hr
    · rw [if_neg hap, if_neg (by simp [flagfalse c t hinv hap]),
        if_pos (by rfl)] at hr
      rw [expRowsGo_pend c 0 t hinv] at hr
      exact markmem t hinv r hr
  | succ m ih =>
    intro c t hinv r hr
    rw [expLoop_succ] at hr
    by_cases hap : anyPendingExp t = false
    · rw [if_pos hap] at hr
      exact vac t hinv hap r hr
    · rw [if_neg hap, if_neg (by simp [flagfalse c t hinv hap]),
        if_neg (by simp)] at hr
      rw [expRowsGo_pend c 0 t hinv] at hr
      exact ih (c + 1) _ (tableInv_pendMap hinv) r hr

theorem initExpRows_cells (trig : Nat → Nat → Option String) :
    ∀ (i : Nat) (ps : List (String × String)), ∀ r ∈ initExpRows trig i ps,
      ∀ c ∈ r.cells, c.status = Status.untriggered := by
  intro i ps
  induction ps generalizing i with
  | nil => intro r hr; simp [initExpRows] at hr
  | cons p ps ih =>
    intro r hr c hc
    simp only [initExpRows, List.mem_cons] at hr
    rcases hr with rfl | hr
    · exact initExpCells_good _ 0 export_types c hc
    · exact ih (i + 1) r hr c hc

theorem initExpRows_inv (trig : Nat → Nat → Option String) (i : Nat)
    (ps : List (String × String)) : tableInv (initExpRows trig i ps) := by
  intro r hr c hc _
  left
  exact initExpRows_cells trig i ps r hr c hc

/-! ### Frame lemmas: probe cycles only touch status and timestamp -/

/-- The fields of a generate/simulate row that probe cycles never
touch: `ID`, `NAME`, `started on`. -/
def frameSim (r : RunRow) : String × String × String := (r.id, r.name, r.startedOn)

/-- The expected frame of the generate/simulate table: one entry per
project, in input order, with the trigger outcome as `started on`. -/
def expectedSimFrame (trig : Nat → String) :
    Nat → List (String × String) → List (String × String × String)
  | _, [] => []
  | i, p :: ps => (p.1, p.2, trig i) :: expectedSimFrame trig (i + 1) ps

theorem initRows_frame (trig : Nat → String) :
    ∀ (i : Nat) (ps : List (String × String)),
      (initRows trig i ps).map frameSim = expectedSimFrame trig i ps := by
  intro i ps
  induction ps generalizing i with
  | nil => rfl
  | cons p ps ih => simp [initRows, expectedSimFrame, frameSim, ih]

theorem probeCycleGo_frame (probe : Nat → String × Status) :
    ∀ (i : Nat) (t : List RunRow),
      ((probeCycleGo probe i t).1).map frameSim = t.map frameSim := by
  intro i t
  induction t generalizing i with
  | nil => rfl
  | cons a rs ih =>
    rw [probeCycleGo_cons]
    simp [frameSim, ih]

theorem markIncompleteSim_frame (t : List RunRow) :
    (markIncompleteSim t).map frameSim = t.map frameSim := by
  simp only [markIncompleteSim, List.map_map]
  apply List.map_congr_left
  intro r _
  by_cases h : r.status = Status.passed ∨ r.status = Status.failed
  · simp [h, frameSim]
  · simp [h, frameSim]

theorem simLoop_frame (probe : Nat → Nat → String × Status) :
    ∀ (fuel c : Nat) (t : List RunRow),
      (simLoop probe fuel c t).map frameSim = t.map frameSim := by
  intro fuel
  induction fuel with
  | zero => intro c t; exact markIncompleteSim_frame t
  | succ n ih =>
    intro c t
    rw [simLoop_succ]
    by_cases hd : (probeCycle (probe c) t).2 = true
    · rw [if_pos hd]
      exact probeCycleGo_frame (probe c) 0 t
    · rw [if_neg hd, ih (c + 1)]
      exact probeCycleGo_frame (probe c) 0 t

theorem genLoop_frame (probe : Nat → Nat → String × Status) :
    ∀ (fuel c : Nat) (t t' : List RunRow), genLoop probe fuel c t = some t' →
      t'.map frameSim = t.map frameSim := by
  intro fuel
  induction fuel with
  | zero => intro c t t' h; cases h
  | succ n ih =>
    intro c t t' h
    rw [genLoop_succ] at h
    by_cases hd : (probeCycle (probe c) t).2 = true
    · rw [if_pos hd] at h
      cases h
      exact probeCycleGo_frame (probe c) 0 t
    · rw [if_neg hd] at h
      rw [ih (c + 1) _ t' h]
      exact probeCycleGo_frame (probe c) 0 t

/-- The fields of an export cell that probe cycles never touch. -/
def frameCell (c : ExpCell) : String × String := (c.typeName, c.createdAt)

/-- The fields of an export row that probe cycles never touch:
`ID`, `NAME`, and each cell's type name and recorded timestamp. -/
def frameExp (r : ExpRow) : String × String × List (String × String) :=
  (r.id, r.name, r.cells.map frameCell)

/-- The expected cell frame of one export row after the trigger pass. -/
def expectedExpCells (trigp : Nat → Option String) :
    Nat → List String → List (String × String)
  | _, [] => []
  | j, ty :: tys => (ty, storedKey (trigp j)) :: expectedExpCells trigp (j + 1) tys

/-- The expected frame of the export table after the trigger pass. -/
def expectedExpFrame (trig : Nat → Nat → Option String) :
    Nat → List (String × String) → List (String × String × List (String × String))
  | _, [] => []
  | i, p :: ps =>
    (p.1, p.2, expectedExpCells (trig i) 0 export_types) :: expectedExpFrame trig (i + 1) ps

theorem initExpCells_frame (trigp : Nat → Option String) :
    ∀ (j : Nat) (tys : List String),
      (initExpCells trigp j tys).map frameCell = expectedExpCells trigp j tys := by
  intro j tys
  induction tys generalizing j with
  | nil => rfl
  | cons ty tys ih => simp [initExpCells, expectedExpCells, frameCell, ih]

theorem initExpRows_frame (trig : Nat → Nat → Option String) :
    ∀ (i : Nat) (ps : List (String × String)),
      (initExpRows trig i ps).map frameExp = expectedExpFrame trig i ps := by
  intro i ps
  induction ps generalizing i with
  | nil => rfl
  | cons p ps ih =>
    simp [initExpRows, expectedExpFrame, frameExp, ih, initExpCells_frame]

theorem expCellsGo_frame (probe : Nat → Status) :
    ∀ (j : Nat) (cs : List ExpCell),
      ((expCellsGo probe j cs).1).map frameCell = cs.map frameCell := by
  intro j cs
  induction cs generalizing j with
  | nil => rfl
  | cons a cs ih =>
    rw [expCellsGo_cons]
    by_cases hp : cellPending a = true
    · simp [hp, frameCell, ih]
    · simp [hp, frameCell, ih]

theorem expRowsGo_frame (probe : Nat → Nat → Status) :
    ∀ (i : Nat) (rs : List ExpRow),
      ((expRowsGo probe i rs).1).map frameExp = rs.map frameExp := by
  intro i rs
  induction rs generalizing i with
  | nil => rfl
  | cons a rs ih =>
    rw [expRowsGo_cons]
    simp [frameExp, ih, expCellsGo_frame]

theorem markIncompleteExp_frame (t : List ExpRow) :
    (markIncompleteExp t).map frameExp = t.map frameExp := by
  simp only [markIncompleteExp, List.map_map]
  apply List.map_congr_left
  intro r _
  simp only [Function.comp_apply, frameExp, List.map_map, Prod.mk.injEq, true_and]
  apply List.map_congr_left
  intro c _
  by_cases h : c.status = Status.pending ∨ c.status = Status.processing
  · simp [h, frameCell]
  · simp [h, frameCell]

theorem expLoop_frame (probe : Nat → Nat → Nat → Status) :
    ∀ (fuel c : Nat) (t : List ExpRow),
      (expLoop probe fuel c t).map frameExp = t.map frameExp := by
  intro fuel
  induction fuel with
  | zero => intro c t; rfl
  | succ n ih =>
    intro c t
    rw [expLoop_succ]
    by_cases hap : anyPendingExp t = false
    · rw [if_pos hap]
    · rw [if_neg hap]
      by_cases hd : (expRowsGo (probe c) 0 t).2 = true
      · rw [if_pos hd]
        exact expRowsGo_frame (probe c) 0 t
      · rw [if_neg hd]
        by_cases hn : n = 0
        · subst hn
          rw [if_pos (by rfl), markIncompleteExp_frame]
          exact expRowsGo_frame (probe c) 0 t
        · rw [if_neg (by simpa using hn), ih (c + 1)]
          exact expRowsGo_frame (probe c) 0 t

/-! ### Correctness of the new-row poll of the export trigger -/

theorem waitForNewRowGo_some (rowsAt : Nat → List (Option String))
    (prev : List String) :
    ∀ (n t0 : Nat) (k : String), waitForNewRowGo rowsAt prev n t0 = some k →
      k ∉ prev ∧ ∃ t, t0 ≤ t ∧ t < t0 + n ∧ k ∈ keysOf (rowsAt t) := by
  intro n
  induction n with
  | zero => intro t0 k h; cases h
  | succ m ih =>
    intro t0 k h
    cases hf : (keysOf (rowsAt t0)).find? (fun x => decide (x ∉ prev)) with
    | some k' =>
      simp only [waitForNewRowGo, hf] at h
      cases h
      have hp := List.find?_some hf
      refine ⟨by simpa using hp, t0, le_refl t0, by omega, ?_⟩
      exact List.mem_of_find?_eq_some hf
    | none =>
      simp only [waitForNewRowGo, hf] at h
      obtain ⟨hk, t, ht1, ht2, ht3⟩ := ih (t0 + 1) k h
      exact ⟨hk, t, by omega, by omega, ht3⟩

theorem waitForNewRowGo_none (rowsAt : Nat → List (Option String))
    (prev : List String) :
    ∀ (n t0 : Nat), waitForNewRowGo rowsAt prev n t0 = none →
      ∀ t, t0 ≤ t → t < t0 + n → ∀ k ∈ keysOf (rowsAt t), k ∈ prev := by
  intro n
  induction n with
  | zero => intro t0 _ t ht1 ht2; omega
  | succ m ih =>
    intro t0 h t ht1 ht2 k hk
    cases hf : (keysOf (rowsAt t0)).find? (fun x => decide (x ∉ prev)) with
    | some k' =>
      rw [waitForNewRowGo, hf] at h
      simp at h
    | none =>
      simp only [waitForNewRowGo, hf] at h
      by_cases ht : t = t0
      · subst ht
        have := List.find?_eq_none.mp hf k hk
        simpa using this
      · exact ih (t0 + 1) h t (by omega) (by omega) k hk

/-! ### Concrete instances used by witnesses and counterexamples -/

/-- Membership in the four-element terminal/untriggered status list
follows from not being `Pending` or `Processing`. -/
theorem status_mem_of_not_pp (s : Status) (h1 : s ≠ Status.pending)
    (h2 : s ≠ Status.processing) :
    s ∈ [Status.passed, Status.failed, Status.incomplete, Status.untriggered] := by
  cases s <;> simp_all

/-- Probe outcomes for the C5 scenario: project 0 reports terminal
`Passed` in cycle 0, then `Failed` in cycle 1; project 1 keeps the run
going after cycle 0 and turns `Passed` in cycle 1. -/
def c5probe : Nat → Nat → String × Status := fun c i =>
  if c = 0 then (if i = 0 then ("t1", Status.passed) else ("", Status.pending))
  else (if i = 0 then ("t2", Status.failed) else ("t2", Status.passed))

/-- Probe outcomes for the C6 scenario: every probe reports a non-empty
update timestamp together with the non-terminal `Processing` status. -/
def c6probe : Nat → Nat → String × Status := fun _ _ => ("2024-01-01", Status.processing)

/-- A terminal export cell for the C5 witness. -/
def c5cell : ExpCell := { typeName := "Encrypted", createdAt := "K", status := Status.passed }

/-- A one-project export table whose only cell is terminal. -/
def c5table : List ExpRow := [{ id := "a", name := "A", cells := [c5cell] }]

/-- Export-trigger observation for the C8 witness: the listing shows a
single already-known key before and after the export action. -/
def c8obs : ExpTrigObs :=
  { raises := false, rowsBefore := [some "T0"], rowsAfter := fun _ => [some "T0"] }

/-- The generate table produced in the C10 witness run. -/
def c10rows : List RunRow :=
  [{ id := "a", name := "A", status := Status.passed, startedOn := "s", completedOn := "t" }]

/-! ### The claims -/

/-- C1 (amended): the simulate and export completion loops respect the
retry budget of 6 probe cycles: a cycle in which every probe is
terminal ends the simulate loop immediately, and when no probe ever
reports a terminal result, simulate marks every job `Incomplete` after
the budget and export marks every triggered cell `Incomplete`; the
generate completion loop however has no retry budget: with probes that
never report a terminal result it runs forever (it has not returned
after any number of probe cycles) and never assigns `Incomplete`. -/
theorem claim_C1_amended :
    (∀ (probe : Nat → Nat → String × Status) (n c : Nat) (t : List RunRow),
      (probeCycle (probe c) t).2 = true → simLoop probe (n + 1) c t = (probeCycle (probe c) t).1) ∧
    (∀ (trig : Nat → String) (projects : List (String × String)),
      ∀ r ∈ run_simulate_rtl trig alwaysPending projects, r.status = Status.incomplete) ∧
    (∀ (trig : Nat → Nat → Option String) (projects : List (String × String)),
      ∀ r ∈ run_export_rtl trig alwaysPendingExp projects, ∀ cl ∈ r.cells,
        cl.createdAt ≠ "" → cl.status = Status.incomplete) ∧
    (∀ (trig : Nat → String) (fuel : Nat) (projects : List (String × String)),
      projects ≠ [] → run_generate_rtl trig alwaysPending fuel projects = none) := by
  refine ⟨?_, ?_, ?_, ?_⟩
  · intro probe n c t h
    rw [simLoop_succ, if_pos h]
  · intro trig projects r hr
    cases projects with
    | nil =>
      rw [run_simulate_rtl] at hr
      rw [show initRows trig 0 [] = [] from rfl, simLoop_succ] at hr
      rw [if_pos (by rfl)] at hr
      simp [probeCycle, probeCycleGo] at hr
    | cons p ps =>
      exact simLoop_pending 5 0 _ (by simp [initRows]) r hr
  · intro trig projects r hr cl hcl hca
    exact expLoop_pendingBudget 5 0 _ (initExpRows_inv trig 0 projects) r hr cl hcl hca
  · intro trig fuel projects hne
    rw [run_generate_rtl]
    apply genLoop_pending
    cases projects with
    | nil => exact absurd rfl hne
    | cons p ps => simp [initRows]

/-- Witness for C1 (amended): a one-project simulate run against
never-terminal probes ends with the job marked `Incomplete`. -/
theorem claim_C1_witness :
    ({ id := "p", name := "P", status := Status.incomplete, startedOn := "",
        completedOn := "" } : RunRow) ∈ run_simulate_rtl (fun _ => "") alwaysPending [("p", "P")] ∧
      ({ id := "p", name := "P", status := Status.incomplete, startedOn := "",
          completedOn := "" } : RunRow).status = Status.incomplete :=
  ⟨by decide, claim_C1_amended.2.1 (fun _ => "") [("p", "P")] _ (by decide)⟩

/-- Counterexample to C1 as stated: the generate completion loop has no
retry budget of 6 cycles.  Against probes that never report a terminal
result it has not returned after 6 probe cycles (so no job was set to
`Incomplete` when the claimed budget ran out) and is still running
after a 7th cycle. -/
theorem claim_C1_counterexample :
    run_generate_rtl (fun _ => "") alwaysPending 6 [("p1", "ProjectOne")] = none ∧
      run_generate_rtl (fun _ => "") alwaysPending 7 [("p1", "ProjectOne")] = none := by
  exact ⟨by decide, by decide⟩

/-- C2: whenever a phase runner returns, every job's final status is
one of `Passed`, `Failed`, `Incomplete`, `Untriggered` (the empty
status string), and in particular never `Pending` or `Processing`; for
export this holds for every per-type cell. -/
theorem claim_C2 :
    (∀ (trig : Nat → String) (probe : Nat → Nat → String × Status) (fuel : Nat)
        (projects : List (String × String)) (t' : List RunRow),
      run_generate_rtl trig probe fuel projects = some t' →
      ∀ r ∈ t',
        r.status ∈ [Status.passed, Status.failed, Status.incomplete, Status.untriggered] ∧
          r.status ≠ Status.pending ∧ r.status ≠ Status.processing) ∧
    (∀ (trig : Nat → String) (probe : Nat → Nat → String × Status)
        (projects : List (String × String)),
      ∀ r ∈ run_simulate_rtl trig probe projects,
        r.status ∈ [Status.passed, Status.failed, Status.incomplete, Status.untriggered] ∧
          r.status ≠ Status.pending ∧ r.status ≠ Status.processing) ∧
    (∀ (trig : Nat → Nat → Option String) (probe : Nat → Nat → Nat → Status)
        (projects : List (String × String)),
      ∀ r ∈ run_export_rtl trig probe projects, ∀ c ∈ r.cells,
        c.status ∈ [Status.passed, Status.failed, Status.incomplete, Status.untriggered] ∧
          c.status ≠ Status.pending ∧ c.status ≠ Status.processing) := by
  refine ⟨?_, ?_, ?_⟩
  · intro trig probe fuel projects t' h r hr
    rcases genLoop_some probe fuel 0 _ t' h r hr with ⟨hst, _⟩
    have h1 : r.status ≠ Status.pending := by rcases hst with h | h <;> rw [h] <;> decide
    have h2 : r.status ≠ Status.processing := by rcases hst with h | h <;> rw [h] <;> decide
    exact ⟨status_mem_of_not_pp _ h1 h2, h1, h2⟩
  · intro trig probe projects r hr
    have hst := simLoop_mem probe 6 0 _ r hr
    have h1 : r.status ≠ Status.pending := by
      rcases hst with h | h | h <;> rw [h] <;> decide
    have h2 : r.status ≠ Status.processing := by
      rcases hst with h | h | h <;> rw [h] <;> decide
    exact ⟨status_mem_of_not_pp _ h1 h2, h1, h2⟩
  · intro trig probe projects r hr c hc
    have hst := expLoop_status probe 5 0 _ (initExpRows_good trig 0 projects) r hr c hc
    exact ⟨status_mem_of_not_pp _ hst.1 hst.2, hst.1, hst.2⟩

/-- Witness for C2: a one-project simulate run whose probe reports
`Passed` with a timestamp ends with status `Passed`, which is in the
allowed set. -/
theorem claim_C2_witness :
    ({ id := "a", name := "A", status := Status.passed, startedOn := "",
        completedOn := "t" } : RunRow)
        ∈ run_simulate_rtl (fun _ => "") (fun _ _ => ("t", Status.passed)) [("a", "A")] ∧
      (({ id := "a", name := "A", status := Status.passed, startedOn := "",
          completedOn := "t" } : RunRow).status
          ∈ [Status.passed, Status.failed, Status.incomplete, Status.untriggered] ∧
        ({ id := "a", name := "A", status := Status.passed, startedOn := "",
            completedOn := "t" } : RunRow).status ≠ Status.pending ∧
        ({ id := "a", name := "A", status := Status.passed, startedOn := "",
            completedOn := "t" } : RunRow).status ≠ Status.processing) :=
  ⟨by decide, claim_C2.2.1 (fun _ => "") (fun _ _ => ("t", Status.passed)) [("a", "A")] _ (by decide)⟩

/-- C3 (amended): the simulate and export probes classify by the
claimed priority order (success icon, then failure icon, then progress
icon, else `Pending`, and a missing entry is `Pending`); the generate
probe however checks the failure icon before the success icon, has no
`Processing` case, and reports `Failed` (not `Pending`) when the entry
row is not found. -/
theorem claim_C3_amended :
    (∀ obs : SimObs, obs.raises = false →
      (check_simulation_completion obs).2 = classifySpec (simEntry obs)) ∧
    (∀ (obs : ExpObs) (ca : String), obs.raises = false →
      check_export_completion obs ca = classifySpec (expEntry obs ca)) ∧
    (∀ obs : GenObs, obs.raises = false →
      (check_generate_completion obs).2 = genClassify obs.row) := by
  refine ⟨?_, ?_, ?_⟩
  · intro obs h
    simp only [check_simulation_completion, simEntry, h, Bool.false_eq_true, if_false]
    cases obs.row with
    | none => rfl
    | some r =>
      cases r with
      | mk u sc =>
        cases sc with
        | none => rfl
        | some c =>
          cases c with
          | mk b1 b2 b3 => cases b1 <;> cases b2 <;> cases b3 <;> rfl
  · intro obs ca h
    simp only [check_export_completion, expEntry, h, Bool.false_eq_true, if_false]
    cases findTargetRow obs.rows ca with
    | none => rfl
    | some r =>
      cases r with
      | mk rca sc =>
        cases sc with
        | none => rfl
        | some c =>
          cases c with
          | mk b1 b2 b3 => cases b1 <;> cases b2 <;> cases b3 <;> rfl
  · intro obs h
    simp only [check_generate_completion, genClassify, h, Bool.false_eq_true, if_false]
    cases obs.row with
    | none => rfl
    | some r => rfl

/-- A status cell showing only the progress spinner. -/
def c3cell : StatusCellObs :=
  { checkCircle := false, highlightOff := false, circularProgress := true }

/-- A simulate probe observation whose entry row exists and shows only
the progress spinner. -/
def c3obs : SimObs :=
  { raises := false, row := some { updatedAt := some "u", statusCell := some c3cell } }

/-- Witness for C3 (amended): a simulate probe observation showing only
the progress spinner classifies as `Processing`, matching the spec
classifier. -/
theorem claim_C3_witness :
    c3obs.raises = false ∧
      (check_simulation_completion c3obs).2 = classifySpec (simEntry c3obs) :=
  ⟨rfl, claim_C3_amended.1 c3obs rfl⟩

/-- Counterexample to C3 as stated: when the entry row is not found at
all, the claim requires `Pending`, but the generate probe returns
`Failed`. -/
theorem claim_C3_counterexample :
    (check_generate_completion { raises := false, row := none }).2 = Status.failed ∧
      classifySpec none = Status.pending ∧ Status.failed ≠ Status.pending := by
  exact ⟨rfl, rfl, by decide⟩

/-- C4 (amended): only the export runner skips jobs without a
correlation key: an export cell whose trigger recorded no key is never
probed, keeps its initial untriggered (empty) status through the whole
run, and is excluded from the `Incomplete` marking; in generate and
simulate the probe ignores the correlation key and every project is
probed on every cycle (see the counterexample). -/
theorem claim_C4_amended :
    ∀ (trig : Nat → Nat → Option String) (probe : Nat → Nat → Nat → Status)
      (projects : List (String × String)) (i j : Nat) (c : ExpCell),
      getCell (initExpRows trig 0 projects) i j = some c → c.createdAt = "" →
      getCell (run_export_rtl trig probe projects) i j = some c ∧
        c.status = Status.untriggered := by
  intro trig probe projects i j c hc hca
  have hst := (getCell_initExpRows trig projects i j c hc).1
  refine ⟨?_, hst⟩
  apply expLoop_frozen
  · exact hc
  · simp [cellPending, hca]
  · rw [hst]; decide
  · rw [hst]; decide

/-- Witness for C4 (amended): with no trigger outcome at all, the
`Obfuscated` cell of a one-project export run keeps its empty status. -/
theorem claim_C4_witness :
    (getCell (initExpRows (fun _ _ => none) 0 [("a", "A")]) 0 1 =
        some { typeName := "Obfuscated", createdAt := "", status := Status.untriggered } ∧
      ({ typeName := "Obfuscated", createdAt := "", status := Status.untriggered } : ExpCell).createdAt = "") ∧
      (getCell (run_export_rtl (fun _ _ => none) (fun _ _ _ => Status.passed) [("a", "A")]) 0 1 =
        some { typeName := "Obfuscated", createdAt := "", status := Status.untriggered } ∧
        ({ typeName := "Obfuscated", createdAt := "", status := Status.untriggered } : ExpCell).status =
          Status.untriggered) :=
  ⟨⟨by decide, by decide⟩,
    claim_C4_amended (fun _ _ => none) (fun _ _ _ => Status.passed) [("a", "A")] 0 1 _
      (by decide) (by decide)⟩

/-- Counterexample to C4 as stated: in the simulate runner a job whose
trigger returned no correlation key (`started on` is empty) is still
probed — its status becomes the probe's result `Passed`, so it leaves
`Untriggered` and is neither `Incomplete` nor excluded at the end of
the batch. -/
theorem claim_C4_counterexample :
    (run_simulate_rtl (fun _ => "") (fun _ _ => ("t", Status.passed)) [("p1", "P1")]).map
        (fun r => (r.startedOn, r.status)) = [("", Status.passed)] := by
  decide

/-- C5 (amended): in the export runner terminal statuses are sticky:
a cell already `Passed` or `Failed` is excluded from `pending_exports`,
never probed again, and keeps its status and timestamp through all
remaining cycles; in the generate and simulate runners every job is
re-probed on every cycle and its status is overwritten with the fresh
probe result, so a terminal status can change (see the
counterexample). -/
theorem claim_C5_amended :
    ∀ (probe : Nat → Nat → Nat → Status) (n c : Nat) (t : List ExpRow) (i j : Nat)
      (cl : ExpCell), getCell t i j = some cl →
      (cl.status = Status.passed ∨ cl.status = Status.failed) →
      getCell (expLoop probe n c t) i j = some cl := by
  intro probe n c t i j cl hc hterm
  apply expLoop_frozen
  · exact hc
  · rcases hterm with h | h <;> simp [cellPending, h]
  · rcases hterm with h | h <;> rw [h] <;> decide
  · rcases hterm with h | h <;> rw [h] <;> decide

/-- Witness for C5 (amended): a `Passed` export cell survives a full
six-cycle loop against probes that always report `Failed`. -/
theorem claim_C5_witness :
    getCell c5table 0 0 = some c5cell ∧
      getCell (expLoop (fun _ _ _ => Status.failed) 6 0 c5table) 0 0 = some c5cell :=
  ⟨by decide,
    claim_C5_amended (fun _ _ _ => Status.failed) 6 0 c5table 0 0 c5cell (by decide)
      (Or.inl (by decide))⟩

/-- Counterexample to C5 as stated: in the simulate runner, job `a` is
terminal (`Passed`) after the first probe cycle of the run, yet the
same run later overwrites it with `Failed`: terminal statuses are not
sticky for simulate (the generate loop body is identical). -/
theorem claim_C5_counterexample :
    ((probeCycle (c5probe 0) (initRows (fun _ => "s") 0 [("a", "A"), ("b", "B")])).1.map
        RunRow.status = [Status.passed, Status.pending]) ∧
      ((run_simulate_rtl (fun _ => "s") c5probe [("a", "A"), ("b", "B")]).map
        RunRow.status = [Status.failed, Status.passed]) := by
  exact ⟨by decide, by decide⟩

/-- C6 (amended): during a run the `completed on` field is overwritten
on every probe cycle with the probe's reported update timestamp
regardless of the reported status, so it can be non-empty while the
status is still `Pending` or `Processing` (see the counterexample); it
is only at the point where the runner returns that a non-empty
`completed on` implies a terminal status, because every returned
status is terminal. -/
theorem claim_C6_amended :
    (∀ (trig : Nat → String) (probe : Nat → Nat → String × Status)
        (projects : List (String × String)),
      ∀ r ∈ run_simulate_rtl trig probe projects, r.completedOn ≠ "" →
        r.status = Status.passed ∨ r.status = Status.failed ∨
          r.status = Status.incomplete) ∧
    (∀ (trig : Nat → String) (probe : Nat → Nat → String × Status) (fuel : Nat)
        (projects : List (String × String)) (t' : List RunRow),
      run_generate_rtl trig probe fuel projects = some t' →
      ∀ r ∈ t', r.completedOn ≠ "" →
        r.status = Status.passed ∨ r.status = Status.failed) := by
  constructor
  · intro trig probe projects r hr _
    exact simLoop_mem probe 6 0 _ r hr
  · intro trig probe fuel projects t' h r hr _
    exact (genLoop_some probe fuel 0 _ t' h r hr).1

/-- The row produced by the C6 witness run. -/
def c6row : RunRow :=
  { id := "a", name := "A", status := Status.passed, startedOn := "", completedOn := "t" }

/-- Witness for C6 (amended): in a finished one-project simulate run
the row with `completed on = "t"` has the terminal status `Passed`. -/
theorem claim_C6_witness :
    c6row ∈ run_simulate_rtl (fun _ => "") (fun _ _ => ("t", Status.passed)) [("a", "A")] ∧
      c6row.completedOn ≠ "" ∧
      (c6row.status = Status.passed ∨ c6row.status = Status.failed ∨
        c6row.status = Status.incomplete) :=
  ⟨by decide, by decide,
    claim_C6_amended.1 (fun _ => "") (fun _ _ => ("t", Status.passed)) [("a", "A")] c6row
      (by decide) (by decide)⟩

/-- Counterexample to C6 as stated: after the first probe cycle of a
simulate run (the cycle `run_simulate_rtl` itself performs, as the
second conjunct shows), the job's record holds a non-empty
`completed on` while its status is the non-terminal `Processing`. -/
theorem claim_C6_counterexample :
    ((probeCycle (c6probe 0) (initRows (fun _ => "") 0 [("a", "A")])).1.map
        (fun r => (r.completedOn, r.status)) = [("2024-01-01", Status.processing)]) ∧
      (run_simulate_rtl (fun _ => "") c6probe [("a", "A")] =
        simLoop c6probe 5 1 (probeCycle (c6probe 0) (initRows (fun _ => "") 0 [("a", "A")])).1) ∧
      Status.processing ≠ Status.passed ∧ Status.processing ≠ Status.failed ∧
      Status.processing ≠ Status.incomplete := by
  refine ⟨by decide, ?_, by decide, by decide, by decide⟩
  rw [run_simulate_rtl, simLoop_succ]
  rw [if_neg (by decide)]

/-- C7: every status probe catches any exception raised during the
check and converts it to `Failed` — with an empty timestamp for the
generate and simulate probes, which return a timestamp; the export
probe returns only the status.  Being total functions of their
observations, the probes never propagate an exception. -/
theorem claim_C7 :
    (∀ obs : GenObs, obs.raises = true →
      check_generate_completion obs = ("", Status.failed)) ∧
    (∀ obs : SimObs, obs.raises = true →
      check_simulation_completion obs = ("", Status.failed)) ∧
    (∀ (obs : ExpObs) (ca : String), obs.raises = true →
      check_export_completion obs ca = Status.failed) := by
  refine ⟨?_, ?_, ?_⟩
  · intro obs h
    simp [check_generate_completion, h]
  · intro obs h
    simp [check_simulation_completion, h]
  · intro obs ca h
    simp [check_export_completion, h]

/-- Witness for C7: a raising simulate probe observation yields
`("", Failed)`. -/
theorem claim_C7_witness :
    (({ raises := true, row := none } : SimObs).raises = true) ∧
      check_simulation_completion { raises := true, row := none } = ("", Status.failed) :=
  ⟨rfl, claim_C7.2.1 { raises := true, row := none } rfl⟩

/-- C8 (amended): only the export trigger obtains its correlation key
by snapshotting the known keys and then polling, bounded by the
30-second timeout sampling once per second, for a key outside the
snapshot, returning absent when none appears in time; the generate
(and simulate) triggers instead read the creation-timestamp field once,
immediately after the action, with no snapshot and no polling. -/
theorem claim_C8_amended :
    (∀ obs : ExpTrigObs, obs.raises = false →
      (∀ k, trigger_export obs = some k →
        k ∉ keysOf obs.rowsBefore ∧ ∃ t, t < 30 ∧ k ∈ keysOf (obs.rowsAfter t)) ∧
      (trigger_export obs = none →
        ∀ t, t < 30 → ∀ k ∈ keysOf (obs.rowsAfter t), k ∈ keysOf obs.rowsBefore)) ∧
    (∀ obs : GenTrigObs, obs.raises = false →
      trigger_generate_design obs = obs.createdAtField.getD "") := by
  constructor
  · intro obs h
    have he : trigger_export obs =
        waitForNewRowGo obs.rowsAfter (keysOf obs.rowsBefore) 30 0 := by
      simp [trigger_export, wait_for_new_row, h]
    constructor
    · intro k hk
      rw [he] at hk
      obtain ⟨h1, t, _, ht1, ht2⟩ := waitForNewRowGo_some obs.rowsAfter _ 30 0 k hk
      exact ⟨h1, t, by omega, ht2⟩
    · intro hn t ht k hk
      rw [he] at hn
      exact waitForNewRowGo_none obs.rowsAfter _ 30 0 hn t (by omega) (by omega) k hk
  · intro obs h
    simp [trigger_generate_design, h]

/-- Witness for C8 (amended): when the listing keeps showing only the
already-known key `T0`, the export trigger polls the full timeout and
returns absent, and every key it ever saw was in the snapshot. -/
theorem claim_C8_witness :
    c8obs.raises = false ∧ trigger_export c8obs = none ∧
      (∀ t, t < 30 → ∀ k ∈ keysOf (c8obs.rowsAfter t), k ∈ keysOf c8obs.rowsBefore) :=
  ⟨rfl, by decide, (claim_C8_amended.1 c8obs rfl).2 (by decide)⟩

/-- Counterexample to C8 as stated: with previously-known keys
`{"T0"}` and a listing that forever shows only `T0`, the claimed
snapshot-and-poll procedure returns absent (no new key within the
timeout), but the generate trigger — which does no snapshot and no
polling — returns the non-empty `"T0"` it reads from the
creation-timestamp field. -/
theorem claim_C8_counterexample :
    trigger_generate_design { raises := false, createdAtField := some "T0" } = "T0" ∧
      wait_for_new_row (fun _ => [some "T0"]) ["T0"] 30 = none ∧ ("T0" : String) ≠ "" := by
  exact ⟨by decide, by decide, by decide⟩

/-- C9: given a successful login, the top-level run over the three
phases reports success exactly when at least one phase runner
succeeded, i.e. overall failure requires all three phases to fail;
login failure alone also reports failure. -/
theorem claim_C9 :
    ∀ g s e : Bool,
      run_all_tests true g s e = (g || s || e) ∧ run_all_tests false g s e = false := by
  intro g s e
  exact ⟨rfl, rfl⟩

/-- C10: each phase runner returns one row per input project, in input
order, with `ID` and `NAME` taken from the input pair; the probe
cycles only ever mutate status and completion-timestamp fields, so the
`started on` (resp. per-type `createdAt`) columns still hold exactly
the trigger outcomes when the runner returns. -/
theorem claim_C10 :
    (∀ (trig : Nat → String) (probe : Nat → Nat → String × Status)
        (projects : List (String × String)),
      (run_simulate_rtl trig probe projects).map frameSim = expectedSimFrame trig 0 projects) ∧
    (∀ (trig : Nat → Nat → Option String) (probe : Nat → Nat → Nat → Status)
        (projects : List (String × String)),
      (run_export_rtl trig probe projects).map frameExp = expectedExpFrame trig 0 projects) ∧
    (∀ (trig : Nat → String) (probe : Nat → Nat → String × Status) (fuel : Nat)
        (projects : List (String × String)) (t' : List RunRow),
      run_generate_rtl trig probe fuel projects = some t' →
      t'.map frameSim = expectedSimFrame trig 0 projects) := by
  refine ⟨?_, ?_, ?_⟩
  · intro trig probe projects
    rw [run_simulate_rtl, simLoop_frame, initRows_frame]
  · intro trig probe projects
    rw [run_export_rtl, expLoop_frame, initExpRows_frame]
  · intro trig probe fuel projects t' h
    rw [genLoop_frame probe fuel 0 _ t' h, initRows_frame]

/-- Witness for C10: a one-project generate run that finishes in one
cycle returns a table whose frame matches the input project and
trigger outcome. -/
theorem claim_C10_witness :
    run_generate_rtl (fun _ => "s") (fun _ _ => ("t", Status.passed)) 1 [("a", "A")] =
        some c10rows ∧
      c10rows.map frameSim = expectedSimFrame (fun _ => "s") 0 [("a", "A")] :=
  ⟨by decide,
    claim_C10.2.2 (fun _ => "s") (fun _ _ => ("t", Status.passed)) 1 [("a", "A")] c10rows
      (by decide)⟩

end Inoculator

